import Mathlib

/-!
Verification of the PRFI event-to-token pipeline (prfi-api-tokenization).

The Python sources are shallowly embedded: byte strings are `List Nat`
(ASCII codes), machine floats that only ever hold exact decimal values are
`ℚ`, fallible code returns `Option` or `Except`, and Python's `hashlib.sha256`
is implemented bit-for-bit below (FIPS 180-4) so that hashes of concrete
inputs evaluate inside Lean.

Layout: all definitions first (SHA-256 core, then one section per source
module), then the theorems.
-/

/-! ## SHA-256 over byte lists (hashlib.sha256) -/

/-- Truncate to 32 bits. -/
def m32 (x : Nat) : Nat := x % 4294967296

/-- Addition modulo 2^32. -/
def add32 (a b : Nat) : Nat := m32 (a + b)

/-- Rotate a 32-bit word right by `n`. -/
def rotr32 (n x : Nat) : Nat :=
  m32 (Nat.lor (Nat.shiftRight x n) (Nat.shiftLeft x (32 - n)))

/-- Logical shift right. -/
def shr32 (n x : Nat) : Nat := Nat.shiftRight x n

/-- Three-way xor. -/
def xor3 (a b c : Nat) : Nat := Nat.xor (Nat.xor a b) c

/-- SHA-256 Σ0. -/
def bsig0 (x : Nat) : Nat := xor3 (rotr32 2 x) (rotr32 13 x) (rotr32 22 x)

/-- SHA-256 Σ1. -/
def bsig1 (x : Nat) : Nat := xor3 (rotr32 6 x) (rotr32 11 x) (rotr32 25 x)

/-- SHA-256 σ0. -/
def ssig0 (x : Nat) : Nat := xor3 (rotr32 7 x) (rotr32 18 x) (shr32 3 x)

/-- SHA-256 σ1. -/
def ssig1 (x : Nat) : Nat := xor3 (rotr32 17 x) (rotr32 19 x) (shr32 10 x)

/-- SHA-256 choice function. -/
def chf (x y z : Nat) : Nat :=
  Nat.xor (Nat.land x y) (Nat.land (Nat.xor x 4294967295) z)

/-- SHA-256 majority function. -/
def majf (x y z : Nat) : Nat :=
  Nat.xor (Nat.xor (Nat.land x y) (Nat.land x z)) (Nat.land y z)

/-- The 64 SHA-256 round constants. -/
def shaK : List Nat :=
  [1116352408, 1899447441, 3049323471, 3921009573, 961987163, 1508970993,
   2453635748, 2870763221, 3624381080, 310598401, 607225278, 1426881987,
   1925078388, 2162078206, 2614888103, 3248222580, 3835390401, 4022224774,
   264347078, 604807628, 770255983, 1249150122, 1555081692, 1996064986,
   2554220882, 2821834349, 2952996808, 3210313671, 3336571891, 3584528711,
   113926993, 338241895, 666307205, 773529912, 1294757372, 1396182291,
   1695183700, 1986661051, 2177026350, 2456956037, 2730485921, 2820302411,
   3259730800, 3345764771, 3516065817, 3600352804, 4094571909, 275423344,
   430227734, 506948616, 659060556, 883997877, 958139571, 1322822218,
   1537002063, 1747873779, 1955562222, 2024104815, 2227730452, 2361852424,
   2428436474, 2756734187, 3204031479, 3329325298]

/-- The eight 32-bit words of an intermediate SHA-256 state. -/
structure Hash8 where
  a : Nat
  b : Nat
  c : Nat
  d : Nat
  e : Nat
  f : Nat
  g : Nat
  h : Nat
deriving DecidableEq

/-- Initial SHA-256 state. -/
def shaH0 : Hash8 :=
  ⟨1779033703, 3144134277, 1013904242, 2773480762, 1359893119, 2600822924, 528734635, 1541459225⟩

/-- Big-endian 64-bit length field of the SHA-256 padding. -/
def lenBytes64 (n : Nat) : List Nat :=
  [n / 2^56 % 256, n / 2^48 % 256, n / 2^40 % 256, n / 2^32 % 256,
   n / 2^24 % 256, n / 2^16 % 256, n / 2^8 % 256, n % 256]

/-- FIPS 180-4 padding: append 0x80, zeros, and the bit length. -/
def padMsg (m : List Nat) : List Nat :=
  let L := m.length
  let k := (55 + 64 - (L % 64)) % 64
  m ++ [128] ++ List.replicate k 0 ++ lenBytes64 (8 * L)

/-- Group bytes into big-endian 32-bit words. -/
def bytesToWords : List Nat → List Nat
  | b0 :: b1 :: b2 :: b3 :: rest =>
      (b0 * 2^24 + b1 * 2^16 + b2 * 2^8 + b3) :: bytesToWords rest
  | _ => []

/-- Split a word list into blocks of 16 words. -/
def chunk16 : List Nat → List (List Nat)
  | w0 :: w1 :: w2 :: w3 :: w4 :: w5 :: w6 :: w7 ::
    w8 :: w9 :: w10 :: w11 :: w12 :: w13 :: w14 :: w15 :: rest =>
      [w0, w1, w2, w3, w4, w5, w6, w7, w8, w9, w10, w11, w12, w13, w14, w15] :: chunk16 rest
  | _ => []

/-- Extend the 16 block words by growing the message schedule `n` more steps. -/
def extendSched (ws : List Nat) : Nat → List Nat
  | 0 => ws
  | n + 1 =>
      let ws' := extendSched ws n
      let i := ws'.length
      let w := add32 (add32 (ssig1 (ws'.getD (i-2) 0)) (ws'.getD (i-7) 0))
                     (add32 (ssig0 (ws'.getD (i-15) 0)) (ws'.getD (i-16) 0))
      ws' ++ [w]

/-- Full 64-word message schedule of a block. -/
def sched64 (ws : List Nat) : List Nat := extendSched ws 48

/-- One SHA-256 compression round. -/
def roundStep (st : Hash8) (kw : Nat × Nat) : Hash8 :=
  let t1 := add32 st.h (add32 (bsig1 st.e) (add32 (chf st.e st.f st.g) (add32 kw.1 kw.2)))
  let t2 := add32 (bsig0 st.a) (majf st.a st.b st.c)
  ⟨add32 t1 t2, st.a, st.b, st.c, add32 st.d t1, st.e, st.f, st.g⟩

/-- Compress one 16-word block into the running state. -/
def compress (st : Hash8) (block : List Nat) : Hash8 :=
  let ws := sched64 block
  let fin := (shaK.zip ws).foldl roundStep st
  ⟨add32 st.a fin.a, add32 st.b fin.b, add32 st.c fin.c, add32 st.d fin.d,
   add32 st.e fin.e, add32 st.f fin.f, add32 st.g fin.g, add32 st.h fin.h⟩

/-- Big-endian bytes of a 32-bit word. -/
def wordBytes (w : Nat) : List Nat :=
  [w / 2^24 % 256, w / 2^16 % 256, w / 2^8 % 256, w % 256]

/-- SHA-256 of a byte string, as 32 bytes. -/
def sha256 (m : List Nat) : List Nat :=
  let blocks := chunk16 (bytesToWords (padMsg m))
  let fin := blocks.foldl compress shaH0
  wordBytes fin.a ++ wordBytes fin.b ++ wordBytes fin.c ++ wordBytes fin.d ++
  wordBytes fin.e ++ wordBytes fin.f ++ wordBytes fin.g ++ wordBytes fin.h

/-- ASCII code of a lowercase hex digit. -/
def hexDigit (n : Nat) : Nat := if n < 10 then 48 + n else 87 + n

/-- Lowercase hex encoding of a byte string, as ASCII codes. -/
def bytesToHex : List Nat → List Nat
  | [] => []
  | b :: bs => hexDigit (b / 16) :: hexDigit (b % 16) :: bytesToHex bs

/-- Python's `hashlib.sha256(m).hexdigest()`: 64 ASCII codes of hex characters. -/
def sha256hex (m : List Nat) : List Nat := bytesToHex (sha256 m)

/-- Decimal digits (ASCII codes) of a natural number, fuel-driven so that it
evaluates in the kernel; mirrors Python's `str(n)` inside an f-string. -/
def natDecAux : Nat → Nat → List Nat
  | 0, _ => []
  | fuel + 1, n => if n < 10 then [48 + n] else natDecAux fuel (n / 10) ++ [48 + n % 10]

/-- Decimal ASCII representation of a natural number. -/
def natToDec (n : Nat) : List Nat := natDecAux (n + 1) n

/-! ## prfi-core/cliente_descentralizado.py — Merkle root and mining -/

/-- Embedding of `json.dumps(events, sort_keys=True)` for a list of plain
strings (the payload hashes of a batch): quoted items joined by a comma and
a space inside brackets. `sort_keys` only affects dicts and is a no-op on a
list of strings. Bytes are ASCII codes; 91/93 are the brackets, 34 the
quote, 44/32 the comma and space. -/
def json_dumps_strlist (events : List (List Nat)) : List Nat :=
  [91] ++ List.intercalate [44, 32] (events.map (fun s => [34] ++ s ++ [34])) ++ [93]

/-- Embedding of `PRFIClientDescentralizado._calculate_merkle_root`
(`src/prfi-core/cliente_descentralizado.py:388`): the empty list maps to 64
ASCII zeros, any other list to the SHA-256 hex digest of its JSON dump.
The code does not build a hash tree. -/
def calculate_merkle_root (events : List (List Nat)) : List Nat :=
  if events.isEmpty then List.replicate 64 48
  else sha256hex (json_dumps_strlist events)

/-- Modelled from the spec (section 4.4 Merkle rule), for comparison with
`calculate_merkle_root`: one level of the binary SHA-256 Merkle tree over
hex-digest strings, duplicating the last node when the level is odd. -/
def spec_merkle_level : List (List Nat) → List (List Nat)
  | a :: b :: rest => sha256hex (a ++ b) :: spec_merkle_level rest
  | [a] => [sha256hex (a ++ a)]
  | [] => []

/-- Modelled from the spec: fold Merkle levels until a single root remains;
the fuel is the leaf count, which bounds the number of levels. Empty input
gives the spec's 64-zero root. -/
def spec_merkle_root_aux : Nat → List (List Nat) → List Nat
  | _, [] => List.replicate 64 48
  | _, [x] => x
  | 0, x :: _ => x
  | fuel + 1, l => spec_merkle_root_aux fuel (spec_merkle_level l)

/-- Modelled from the spec: the binary SHA-256 Merkle root of an ordered
leaf list (leaves in insertion order, internal node `SHA256(left ∥ right)`,
odd level duplicates its last node). -/
def spec_merkle_root (leaves : List (List Nat)) : List Nat :=
  spec_merkle_root_aux leaves.length leaves

/-- Embedding of `PRFIClientDescentralizado._calculate_difficulty`
(`cliente_descentralizado.py:373`): the number of leading ASCII `'0'`
(code 48) characters of a hex digest. -/
def calculate_difficulty : List Nat → Nat
  | c :: rest => if c = 48 then calculate_difficulty rest + 1 else 0
  | [] => 0

/-- Embedding of `PRFIClientDescentralizado._generate_block_hash`
(`cliente_descentralizado.py:360`): the hex digest of
`miner ∥ batch_id ∥ events_count ∥ nonce ∥ merkle_root ∥ hour_bucket`,
where numbers appear in decimal and `hour_bucket = now_secs / 3600`. -/
def generate_block_hash (company_address batch_id : List Nat) (events_count nonce : Nat)
    (merkle_root : List Nat) (now_secs : Nat) : List Nat :=
  let timestamp_hour := now_secs / 3600
  sha256hex (company_address ++ batch_id ++ natToDec events_count ++ natToDec nonce ++
             merkle_root ++ natToDec timestamp_hour)

/-- Result record of `_mine_block` (the wall-clock `mining_time` field is
omitted from the embedding). -/
structure MiningOutcome where
  nonce : Nat
  block_hash : List Nat
  difficulty : Nat
  events_count : Nat
deriving DecidableEq

/-- Embedding of the `while nonce < max_iterations` loop of
`PRFIClientDescentralizado._mine_block` (`cliente_descentralizado.py:305`):
`fuel` counts the remaining iterations, `nonce` the next candidate. -/
def mine_block_aux (addr batch_id : List Nat) (events_count : Nat) (merkle_root : List Nat)
    (now_secs min_difficulty : Nat) : Nat → Nat → Option MiningOutcome
  | 0, _ => none
  | fuel + 1, nonce =>
      let bh := generate_block_hash addr batch_id events_count nonce merkle_root now_secs
      let d := calculate_difficulty bh
      if min_difficulty ≤ d then some ⟨nonce, bh, d, events_count⟩
      else mine_block_aux addr batch_id events_count merkle_root now_secs min_difficulty fuel (nonce + 1)

/-- Embedding of `PRFIClientDescentralizado._mine_block`: nonces 0,1,2,…
are tried in order, at most `max_iterations = 1000000` of them; on
exhaustion the Python function prints a message and returns `None` (it
raises nothing). -/
def mine_block (addr batch_id : List Nat) (events_count : Nat) (merkle_root : List Nat)
    (now_secs min_difficulty : Nat) : Option MiningOutcome :=
  mine_block_aux addr batch_id events_count merkle_root now_secs min_difficulty 1000000 0

/-! ## minerador/crypto.py — standalone proof of work -/

/-- Embedding of the unbounded `while True` loop of `ProofOfWork.mine`
(`src/minerador/crypto.py:23`), indexed by fuel: the Python loop has no
iteration cap, so no finite fuel is guaranteed to produce a result. The
target is `"0" * difficulty`. -/
def pow_mine_aux (data target : List Nat) : Nat → Nat → Option (Nat × List Nat)
  | 0, _ => none
  | fuel + 1, nonce =>
      let h := sha256hex (data ++ natToDec nonce)
      if target.isPrefixOf h then some (nonce, h)
      else pow_mine_aux data target fuel (nonce + 1)

/-! ## prfi-core/tokenizacao/contador.py — event counter -/

/-- Counted state of one company: `total_events` and `current_batch_events`
mirror the fields of `Company` (tokenizacao/modelos.py); `batches_created`
counts the `TokenBatch` records created so far. -/
structure CounterState where
  total_events : Nat
  current_batch_events : Nat
  batches_created : Nat
deriving DecidableEq

/-- Embedding of `EventCounter.increment_event_count`
(`src/prfi-core/tokenizacao/contador.py:37`): both counters are
incremented; when `current_batch_events >= events_per_token` a token batch
is created and the batch counter resets to 0. -/
def increment_event_count (events_per_token : Nat) (s : CounterState) : CounterState :=
  let total := s.total_events + 1
  let batchEvents := s.current_batch_events + 1
  if events_per_token ≤ batchEvents then
    ⟨total, 0, s.batches_created + 1⟩
  else
    ⟨total, batchEvents, s.batches_created⟩

/-- A fresh company ledger (Company model defaults: counters start at 0). -/
def initial_counter : CounterState := ⟨0, 0, 0⟩

/-- The ledger state after counting `n` events. -/
def run_counter (events_per_token : Nat) : Nat → CounterState
  | 0 => initial_counter
  | n + 1 => increment_event_count events_per_token (run_counter events_per_token n)

/-! ## prfi-core/retry.py — backoff and retry policy -/

/-- Retry configuration (`RetryConfig` fields used by
`RetryManager.calculate_delay`); delays are exact rationals. -/
structure RetryConfigM where
  initial_delay : ℚ
  max_delay : ℚ
  multiplier : ℚ
  jitter : Bool

/-- Embedding of `RetryManager.calculate_delay` (`src/prfi-core/retry.py:28`).
`rand` is the sample returned by `random.random()`, passed explicitly; the
jitter factor is `0.5 + rand * 0.5`. -/
def calculate_delay (config : RetryConfigM) (rand : ℚ) (attempt : Nat) : ℚ :=
  let delay := config.initial_delay * config.multiplier ^ (attempt - 1)
  let delay := min delay config.max_delay
  if config.jitter then delay * (1/2 + rand * (1/2)) else delay

/-- Embedding of `BackoffCalculator.exponential_backoff`
(`src/prfi-core/retry.py:173`), the standalone variant of the same
computation. -/
def exponential_backoff (attempt : Nat) (initial_delay max_delay multiplier : ℚ)
    (jitter : Bool) (rand : ℚ) : ℚ :=
  let delay := initial_delay * multiplier ^ (attempt - 1)
  let delay := min delay max_delay
  if jitter then delay * (1/2 + rand * (1/2)) else delay

/-- Attempt counters of a `PRFIEvent` as read by `RetryManager.should_retry`. -/
structure EventAttempts where
  prfi_attempts : Nat
  prfi_max_attempts : Nat
deriving DecidableEq

/-- A Python exception as inspected by `should_retry`: its class name and
the `status_code` attribute when the error carries one. -/
structure PyError where
  type_name : String
  status_code : Option Int
deriving DecidableEq

/-- The `non_retryable_errors` list of `should_retry` (`retry.py:88`). -/
def non_retryable_errors : List String :=
  ["InvalidSignatureException", "ConfigurationException", "DuplicateEventException"]

/-- Embedding of `RetryManager.should_retry` (`src/prfi-core/retry.py:71`):
no retry once attempts are exhausted or for the listed error classes; for
errors carrying a `status_code`, any 4xx other than 429 is terminal;
everything else is retried. -/
def should_retry (event : EventAttempts) (error : PyError) : Bool :=
  if event.prfi_max_attempts ≤ event.prfi_attempts then false
  else if error.type_name ∈ non_retryable_errors then false
  else
    match error.status_code with
    | some sc => if 400 ≤ sc ∧ sc < 500 ∧ sc ≠ 429 then false else true
    | none => true

/-- Modelled from the spec (section 4.1), for comparison with
`should_retry`: the spec's retryable set — network errors (no status
code), any 5xx, and the statuses 408, 425, 429. -/
def spec_retryable (error : PyError) : Bool :=
  match error.status_code with
  | none => true
  | some sc => (500 ≤ sc && sc < 600) || sc == 408 || sc == 425 || sc == 429

/-! ## prfi-core/seguranca.py — HMAC signatures -/

/-- Drop the `prfi_signature` entry of a payload dict, as in
`SecurityManager.generate_signature` (`src/prfi-core/seguranca.py:45`).
Payloads are association lists of field name to JSON-serialized value. -/
def remove_signature_field (payload : List (String × String)) : List (String × String) :=
  payload.filter (fun kv => kv.1 ≠ "prfi_signature")

/-- Key order used by `json.dumps(…, sort_keys=True)`. -/
def keyLe (a b : String × String) : Prop := a.1 ≤ b.1

instance : DecidableRel keyLe := fun a b => inferInstanceAs (Decidable (a.1 ≤ b.1))

instance : IsTotal (String × String) keyLe := ⟨fun a b => le_total a.1 b.1⟩

instance : IsTrans (String × String) keyLe := ⟨fun _ _ _ h1 h2 => le_trans h1 h2⟩

/-- One `"key":value` item of the canonical JSON text. -/
def json_item (kv : String × String) : String := "\"" ++ kv.1 ++ "\":" ++ kv.2

/-- Embedding of `json.dumps(clean_payload, sort_keys=True, separators=(',', ':'))`:
keys sorted ascending, no whitespace. -/
def canonical_json (payload : List (String × String)) : String :=
  "\x7b" ++ String.intercalate ","
    ((List.insertionSort keyLe (remove_signature_field payload)).map json_item) ++ "\x7d"

/-- Embedding of the `if nonce: json_str += nonce` step: Python treats
`None` and the empty string as falsy, so only a non-empty nonce is
appended. -/
def append_nonce (s : String) (nonce : Option String) : String :=
  match nonce with
  | some n => if n = "" then s else s ++ n
  | none => s

/-- Embedding of `SecurityManager.generate_signature`
(`src/prfi-core/seguranca.py:33`). `mac` abstracts
`hmac.new(secret, ·, sha256).hexdigest()` for a fixed secret key: the
theorems that need more than determinism assume it is collision-free on
the inputs involved. -/
def generate_signature (mac : String → String) (payload : List (String × String))
    (nonce : Option String) : String :=
  "sha256=" ++ mac (append_nonce (canonical_json payload) nonce)

/-! ## minerador/models.py and minerador/storage.py — blocks and block store -/

/-- Status enumeration of `BlockStatus` (minerador/models.py). -/
inductive BlockStatusM where
  | pending
  | submitted
  | confirmed
  | failed
deriving DecidableEq

/-- Values that Python code stores into the dynamically typed
`confirmation_block` slot: the intended block number, or the metadata dict
that `SubmissionMonitor` passes positionally. Empty dict and zero are
falsy. -/
inductive MetaVal where
  | intVal (i : Int)
  | dictVal (entries : List (String × String))
deriving DecidableEq

/-- Python truthiness of a `MetaVal`. -/
def metaTruthy : MetaVal → Bool
  | .intVal i => i ≠ 0
  | .dictVal l => l ≠ []

/-- The `MiningBlock` dataclass (`src/minerador/models.py:20`). It has
`created_at`, `mined_at` and `submitted_at` timestamps (epoch seconds) but
no `timestamp` attribute; floats that hold exact values are `ℚ`. -/
structure MiningBlock where
  block_id : String
  event_id : String
  status : Int
  retries : Nat
  fallback_used : Bool
  source_system : String
  destination : String
  points : ℚ
  miner : String
  signature : String
  public_key : String
  payload_hash : String
  request_duration : ℚ
  response_size : Nat
  created_at : Nat
  mined_at : Option Nat
  submitted_at : Option Nat
  block_status : BlockStatusM
  tx_hash : Option String
  confirmation_block : Option MetaVal
deriving DecidableEq

/-- An on-disk block file: either a parseable block or a corrupt record
(`_dict_to_block` returns `None` on any conversion error). -/
inductive StoredFile where
  | valid (b : MiningBlock)
  | corrupt
deriving DecidableEq

/-- The block store: file name (block id) to file contents. -/
def BlockStore : Type := String → Option StoredFile

/-- Embedding of `LocalBlockStorage.load_block` (`src/minerador/storage.py:65`):
`None` when the file is missing or fails to parse. -/
def load_block (store : BlockStore) (block_id : String) : Option MiningBlock :=
  match store block_id with
  | none => none
  | some .corrupt => none
  | some (.valid b) => some b

/-- Embedding of `LocalBlockStorage.save_block` (`storage.py:35`): the file
named by the block's own `block_id` is (re)written. -/
def save_block (store : BlockStore) (b : MiningBlock) : BlockStore :=
  fun id => if id = b.block_id then some (.valid b) else store id

/-- The field mutations of `update_block_status` on a loaded block:
the status is always set; `tx_hash` and `confirmation_block` only when
truthy (Python's `if tx_hash:` / `if confirmation_block:`); `submitted_at`
is stamped when the new status is SUBMITTED. -/
def apply_update (b : MiningBlock) (new_status : BlockStatusM) (tx_hash : Option String)
    (confirmation_block : Option MetaVal) (now : Nat) : MiningBlock :=
  let b := { b with block_status := new_status }
  let b := match tx_hash with
           | some t => if t ≠ "" then { b with tx_hash := some t } else b
           | none => b
  let b := match confirmation_block with
           | some v => if metaTruthy v then { b with confirmation_block := some v } else b
           | none => b
  if new_status = BlockStatusM.submitted then { b with submitted_at := some now } else b

/-- Embedding of `LocalBlockStorage.update_block_status`
(`src/minerador/storage.py:123`): load, mutate, save. Returns the new
store and the Python return value. -/
def update_block_status (store : BlockStore) (block_id : String) (new_status : BlockStatusM)
    (tx_hash : Option String) (confirmation_block : Option MetaVal) (now : Nat) :
    BlockStore × Bool :=
  match load_block store block_id with
  | none => (store, false)
  | some b => (save_block store (apply_update b new_status tx_hash confirmation_block now), true)

/-! ## submitter/scanner.py — pending-block scan -/

/-- Embedding of the body of `BlockScanner._is_block_valid_for_submission`
(`src/submitter/scanner.py:193`) up to the point where it evaluates
`block.timestamp`: the `MiningBlock` dataclass defines no `timestamp`
attribute, so that access raises `AttributeError`, modelled as
`Except.error`. The checks before it run in source order. -/
def valid_body (b : MiningBlock) : Except Unit Bool :=
  if b.block_id = "" ∨ b.event_id = "" ∨ b.signature = "" ∨ b.public_key = "" ∨ b.miner = "" then
    Except.ok false
  else if b.status ≠ 200 then Except.ok false
  else if b.points ≤ 0 then Except.ok false
  else Except.error ()

/-- Embedding of `BlockScanner._is_block_valid_for_submission` including
its `except Exception: return False` handler. -/
def is_block_valid_for_submission (b : MiningBlock) : Bool :=
  match valid_body b with
  | .ok v => v
  | .error _ => false

/-- Embedding of `BlockScanner._sort_blocks_by_priority`
(`scanner.py:244`): `sorted` calls the priority key on every element and
the key reads `block.timestamp`, so any non-empty list raises
`AttributeError`; the empty list sorts to itself. -/
def sort_blocks_by_priority (blocks : List MiningBlock) : Except Unit (List MiningBlock) :=
  match blocks with
  | [] => Except.ok []
  | _ => Except.error ()

/-- Embedding of `BlockScanner.scan_pending_blocks` (cache disabled path,
`src/submitter/scanner.py:45`): select stored PENDING blocks, filter by
`_is_block_valid_for_submission`, sort; the surrounding
`except Exception: return []` turns any raised error into an empty
result. -/
def scan_pending_blocks (store : List MiningBlock) : List MiningBlock :=
  let pending := store.filter (fun b => b.block_status = BlockStatusM.pending)
  let valid := pending.filter is_block_valid_for_submission
  match sort_blocks_by_priority valid with
  | .ok l => l
  | .error _ => []

/-! ## submitter/monitor.py — receipt processing -/

/-- A transaction receipt as read by `_process_transaction_receipt`. -/
structure Receipt where
  status : Nat
  blockNumber : Nat
  gasUsed : Nat
deriving DecidableEq

/-- Embedding of `SubmissionMonitor._fail_transaction`
(`src/submitter/monitor.py:233`): every member block is set back to
PENDING; the failure metadata dict is passed positionally into the
`confirmation_block` parameter of `update_block_status`. -/
def fail_transaction (store : BlockStore) (tx_hash : String) (blocks : List MiningBlock)
    (now : Nat) : BlockStore :=
  blocks.foldl
    (fun st b =>
      (update_block_status st b.block_id BlockStatusM.pending none
        (some (.dictVal [("failed_tx_hash", tx_hash), ("failure_reason", "transaction_failed")]))
        now).1)
    store

/-- Embedding of `SubmissionMonitor._confirm_transaction`
(`src/submitter/monitor.py:179`): member blocks become CONFIRMED,
again with a metadata dict in the `confirmation_block` slot. -/
def confirm_transaction (store : BlockStore) (tx_hash : String) (receipt : Receipt)
    (blocks : List MiningBlock) (now : Nat) : BlockStore :=
  blocks.foldl
    (fun st b =>
      (update_block_status st b.block_id BlockStatusM.confirmed (some tx_hash)
        (some (.dictVal [("block_number", toString receipt.blockNumber),
                         ("gas_used", toString receipt.gasUsed)]))
        now).1)
    store

/-- Embedding of `SubmissionMonitor._process_transaction_receipt`
(`src/submitter/monitor.py:137`): receipt status 1 confirms once enough
confirmations have accumulated (otherwise the store is untouched), any
other status takes the failure path. -/
def process_transaction_receipt (store : BlockStore) (confirmation_blocks current_block : Nat)
    (tx_hash : String) (receipt : Receipt) (blocks : List MiningBlock) (now : Nat) : BlockStore :=
  let confirmations := current_block - receipt.blockNumber
  if receipt.status = 1 then
    if confirmation_blocks ≤ confirmations then
      confirm_transaction store tx_hash receipt blocks now
    else store
  else fail_transaction store tx_hash blocks now

/-- A fully populated pending block used as a concrete test vector: every
required field non-empty, HTTP status 200, positive points. -/
def sample_pending_block : MiningBlock :=
  ⟨"blk-1", "evt-1", 200, 0, false, "erp", "crm", 1, "0xminer", "sigdata", "pubkey",
   "payloadhash", 1, 120, 1700000000, some 1700000100, none, BlockStatusM.pending, none, none⟩

/-- A concrete submitted block awaiting its transaction receipt. -/
def sample_submitted_block : MiningBlock :=
  { sample_pending_block with
      block_id := "blk-2"
      block_status := BlockStatusM.submitted
      tx_hash := some "0xfeed" }

/-! ## Theorems -/

/-- Sanity check of the SHA-256 embedding against the FIPS 180-4 test
vector: the digest of `"abc"` (bytes 97, 98, 99). -/
theorem sha256_abc_vector :
    sha256 [97, 98, 99] =
      [186, 120, 22, 191, 143, 1, 207, 234, 65, 65, 64, 222, 93, 174, 34, 35,
       176, 3, 97, 163, 150, 23, 122, 156, 180, 16, 255, 97, 242, 0, 21, 173] := by
  decide

/-- Unfolded form of one counter step. -/
theorem increment_event_count_eq (ept : Nat) (s : CounterState) :
    increment_event_count ept s =
      if ept ≤ s.current_batch_events + 1 then
        ⟨s.total_events + 1, 0, s.batches_created + 1⟩
      else ⟨s.total_events + 1, s.current_batch_events + 1, s.batches_created⟩ := rfl

/-- The counter invariant: after any number of events the batch counter is
below the threshold and the totals balance. -/
theorem run_counter_invariant (ept : Nat) (hept : 1 ≤ ept) (n : Nat) :
    (run_counter ept n).current_batch_events < ept ∧
    (run_counter ept n).total_events =
      (run_counter ept n).batches_created * ept + (run_counter ept n).current_batch_events := by
  induction n with
  | zero =>
      refine ⟨hept, ?_⟩
      show (0:Nat) = 0 * ept + 0
      omega
  | succ n ih =>
      obtain ⟨ih1, ih2⟩ := ih
      have hstep : run_counter ept (n + 1) =
          if ept ≤ (run_counter ept n).current_batch_events + 1 then
            ⟨(run_counter ept n).total_events + 1, 0, (run_counter ept n).batches_created + 1⟩
          else ⟨(run_counter ept n).total_events + 1, (run_counter ept n).current_batch_events + 1,
                (run_counter ept n).batches_created⟩ :=
        increment_event_count_eq ept (run_counter ept n)
      by_cases h : ept ≤ (run_counter ept n).current_batch_events + 1
      · rw [hstep, if_pos h]
        refine ⟨hept, ?_⟩
        show (run_counter ept n).total_events + 1 =
          ((run_counter ept n).batches_created + 1) * ept + 0
        have hmul : ((run_counter ept n).batches_created + 1) * ept =
            (run_counter ept n).batches_created * ept + ept := by ring
        rw [hmul]
        omega
      · rw [hstep, if_neg h]
        refine ⟨?_, ?_⟩
        · show (run_counter ept n).current_batch_events + 1 < ept
          omega
        · show (run_counter ept n).total_events + 1 =
            (run_counter ept n).batches_created * ept +
              ((run_counter ept n).current_batch_events + 1)
          omega

/-- C3: every counted event increases `total_events` by exactly one; after
each operation `current_batch_events` lies in `[0, events_per_token)`; the
batch counter resets to zero exactly when a new batch is created; and at
every point `total_events = batches_created * events_per_token +
current_batch_events` (`EventCounter.increment_event_count`,
`src/prfi-core/tokenizacao/contador.py:37`). -/
theorem C3_counter_invariants (ept n : Nat) (hept : 1 ≤ ept) :
    (run_counter ept (n + 1)).total_events = (run_counter ept n).total_events + 1 ∧
    (run_counter ept (n + 1)).current_batch_events < ept ∧
    (run_counter ept (n + 1)).total_events =
      (run_counter ept (n + 1)).batches_created * ept +
        (run_counter ept (n + 1)).current_batch_events ∧
    ((run_counter ept (n + 1)).current_batch_events = 0 ↔
      (run_counter ept (n + 1)).batches_created = (run_counter ept n).batches_created + 1) := by
  obtain ⟨h1, h2⟩ := run_counter_invariant ept hept n
  obtain ⟨h1', h2'⟩ := run_counter_invariant ept hept (n + 1)
  have hstep : run_counter ept (n + 1) =
      if ept ≤ (run_counter ept n).current_batch_events + 1 then
        ⟨(run_counter ept n).total_events + 1, 0, (run_counter ept n).batches_created + 1⟩
      else ⟨(run_counter ept n).total_events + 1, (run_counter ept n).current_batch_events + 1,
            (run_counter ept n).batches_created⟩ :=
    increment_event_count_eq ept (run_counter ept n)
  refine ⟨?_, h1', h2', ?_⟩
  · by_cases h : ept ≤ (run_counter ept n).current_batch_events + 1
    · rw [hstep, if_pos h]
    · rw [hstep, if_neg h]
  · by_cases h : ept ≤ (run_counter ept n).current_batch_events + 1
    · rw [hstep, if_pos h]
      show 0 = 0 ↔ (run_counter ept n).batches_created + 1 = (run_counter ept n).batches_created + 1
      omega
    · rw [hstep, if_neg h]
      show (run_counter ept n).current_batch_events + 1 = 0 ↔
        (run_counter ept n).batches_created = (run_counter ept n).batches_created + 1
      omega

/-- Witness for C3 at `events_per_token = 3` after the third event: the
batch counter has just wrapped to zero and one batch exists. -/
theorem C3_counter_invariants_witness :
    (1 ≤ 3) ∧
    ((run_counter 3 (2 + 1)).total_events = (run_counter 3 2).total_events + 1 ∧
     (run_counter 3 (2 + 1)).current_batch_events < 3 ∧
     (run_counter 3 (2 + 1)).total_events =
       (run_counter 3 (2 + 1)).batches_created * 3 +
         (run_counter 3 (2 + 1)).current_batch_events ∧
     ((run_counter 3 (2 + 1)).current_batch_events = 0 ↔
       (run_counter 3 (2 + 1)).batches_created = (run_counter 3 2).batches_created + 1)) :=
  ⟨by decide, C3_counter_invariants 3 2 (by decide)⟩

/-- C4: with `jitter = false` the computed delay is exactly
`min(initial · multiplier^(k−1), max_delay)`; with `jitter = true` it is
that base times the factor `0.5 + rand/2`, which lies in `[0.5, 1]`; the
standalone `BackoffCalculator.exponential_backoff` computes the same
function (`src/prfi-core/retry.py:28` and `:173`). -/
theorem C4_backoff_exact (config : RetryConfigM) (rand : ℚ) (k : Nat)
    (i mx mult : ℚ) (j : Bool)
    (hk : 1 ≤ k) (h0 : 0 ≤ rand) (h1 : rand < 1) :
    (config.jitter = false →
      calculate_delay config rand k =
        min (config.initial_delay * config.multiplier ^ (k - 1)) config.max_delay) ∧
    (config.jitter = true →
      calculate_delay config rand k =
        min (config.initial_delay * config.multiplier ^ (k - 1)) config.max_delay *
          (1/2 + rand * (1/2)) ∧
      1/2 ≤ 1/2 + rand * (1/2) ∧ 1/2 + rand * (1/2) ≤ 1) ∧
    exponential_backoff k i mx mult j rand = calculate_delay ⟨i, mx, mult, j⟩ rand k := by
  refine ⟨?_, ?_, rfl⟩
  · intro hj
    simp [calculate_delay, hj]
  · intro hj
    refine ⟨by simp [calculate_delay, hj], by linarith, by linarith⟩

/-- Witness for C4 at `initial=1, max=30, multiplier=2, k=3, rand=1/3`,
once with jitter off and once with jitter on. -/
theorem C4_backoff_exact_witness :
    ((1:Nat) ≤ 3 ∧ (0:ℚ) ≤ 1/3 ∧ (1/3:ℚ) < 1) ∧
    ((RetryConfigM.mk 1 30 2 false).jitter = false →
      calculate_delay ⟨1, 30, 2, false⟩ (1/3) 3 =
        min ((1:ℚ) * 2 ^ (3 - 1)) 30) ∧
    ((RetryConfigM.mk 1 30 2 true).jitter = true →
      calculate_delay ⟨1, 30, 2, true⟩ (1/3) 3 =
        min ((1:ℚ) * 2 ^ (3 - 1)) 30 * (1/2 + (1/3) * (1/2)) ∧
      1/2 ≤ 1/2 + (1/3:ℚ) * (1/2) ∧ 1/2 + (1/3:ℚ) * (1/2) ≤ 1) :=
  ⟨⟨by norm_num, by norm_num, by norm_num⟩,
   (C4_backoff_exact ⟨1, 30, 2, false⟩ (1/3) 3 1 30 2 false (by norm_num) (by norm_num)
      (by norm_num)).1,
   fun _ =>
     ((C4_backoff_exact ⟨1, 30, 2, true⟩ (1/3) 3 1 30 2 true (by norm_num) (by norm_num)
        (by norm_num)).2.1 rfl)⟩

/-- Counterexample to C5 as stated: a 408 (request timeout) with attempts
remaining is terminal in the code, while the claim lists 408 as
retryable. -/
theorem C5_counterexample_408 :
    (0:Nat) < 3 ∧
    should_retry ⟨0, 3⟩ ⟨"HTTPError", some 408⟩ = false ∧
    spec_retryable ⟨"HTTPError", some 408⟩ = true := by
  refine ⟨by decide, ?_, by decide⟩
  decide

/-- C5 as amended: with attempts remaining, `should_retry` returns true
iff the error class is not in the non-retryable list and any carried
status code is not a 4xx other than 429. In particular 5xx, 429 and
status-less (network) errors are retried, while 408 and 425 are terminal
(`RetryManager.should_retry`, `src/prfi-core/retry.py:71`). -/
theorem C5_retry_policy (e : EventAttempts) (err : PyError)
    (h : e.prfi_attempts < e.prfi_max_attempts) :
    should_retry e err = true ↔
      (err.type_name ∉ non_retryable_errors ∧
       ∀ sc : Int, err.status_code = some sc → ¬(400 ≤ sc ∧ sc < 500 ∧ sc ≠ 429)) := by
  have hnm : ¬ e.prfi_max_attempts ≤ e.prfi_attempts := by omega
  unfold should_retry
  rw [if_neg hnm]
  by_cases hc : err.type_name ∈ non_retryable_errors
  · rw [if_pos hc]
    constructor
    · intro hr
      exact absurd hr (by decide)
    · rintro ⟨hmem, _⟩
      exact absurd hc hmem
  · rw [if_neg hc]
    cases hcase : err.status_code with
    | none =>
        constructor
        · intro _
          exact ⟨hc, fun sc hsc => nomatch hsc⟩
        · intro _
          rfl
    | some sc =>
        show (if 400 ≤ sc ∧ sc < 500 ∧ sc ≠ 429 then false else true) = true ↔
          (err.type_name ∉ non_retryable_errors ∧
           ∀ sc' : Int, some sc = some sc' → ¬(400 ≤ sc' ∧ sc' < 500 ∧ sc' ≠ 429))
        by_cases hbad : 400 ≤ sc ∧ sc < 500 ∧ sc ≠ 429
        · rw [if_pos hbad]
          constructor
          · intro hr
            exact absurd hr (by decide)
          · rintro ⟨_, hall⟩
            exact absurd hbad (hall sc rfl)
        · rw [if_neg hbad]
          constructor
          · intro _
            refine ⟨hc, fun sc' hsc' => ?_⟩
            injection hsc' with hscEq
            subst hscEq
            exact hbad
          · intro _
            rfl

/-- Witness for C5 at a status-less connection error with attempts
remaining: the amended policy marks it retryable. -/
theorem C5_retry_policy_witness :
    should_retry ⟨0, 3⟩ ⟨"ConnectionError", none⟩ = true ↔
      (("ConnectionError" : String) ∉ non_retryable_errors ∧
       ∀ sc : Int, (none : Option Int) = some sc → ¬(400 ≤ sc ∧ sc < 500 ∧ sc ≠ 429)) :=
  C5_retry_policy ⟨0, 3⟩ ⟨"ConnectionError", none⟩ (by decide)

/-- The digest always has 32 bytes. -/
theorem sha256_length (m : List Nat) : (sha256 m).length = 32 := by
  simp [sha256, wordBytes]

/-- Hex encoding doubles the length. -/
theorem bytesToHex_length (bs : List Nat) : (bytesToHex bs).length = 2 * bs.length := by
  induction bs with
  | nil => rfl
  | cons b bs ih =>
      simp [bytesToHex, ih]
      omega

/-- A hex digest always has 64 characters. -/
theorem sha256hex_length (m : List Nat) : (sha256hex m).length = 64 := by
  simp [sha256hex, bytesToHex_length, sha256_length]

/-- The leading-zero count never exceeds the string length. -/
theorem calculate_difficulty_le_length (l : List Nat) : calculate_difficulty l ≤ l.length := by
  induction l with
  | nil => simp [calculate_difficulty]
  | cons c rest ih =>
      by_cases h : c = 48
      · simp [calculate_difficulty, h]
        omega
      · simp [calculate_difficulty, h]

/-- A string whose leading-zero count is at least `d` starts with `d`
ASCII zeros. -/
theorem take_eq_replicate_of_le_difficulty :
    ∀ (d : Nat) (l : List Nat), d ≤ calculate_difficulty l → l.take d = List.replicate d 48 := by
  intro d
  induction d with
  | zero => intro l _; simp
  | succ d ih =>
      intro l hdl
      cases l with
      | nil => simp [calculate_difficulty] at hdl
      | cons c rest =>
          by_cases hc : c = 48
          · subst hc
            have hrest : d ≤ calculate_difficulty rest := by
              simp [calculate_difficulty] at hdl
              omega
            simp [List.replicate_succ, ih rest hrest]
          · simp [calculate_difficulty, hc] at hdl

/-- Unfolded step of the `_mine_block` search loop. -/
theorem mine_block_aux_step (addr batch_id : List Nat) (ec : Nat) (mr : List Nat)
    (now d fuel nonce : Nat) :
    mine_block_aux addr batch_id ec mr now d (fuel + 1) nonce =
      if d ≤ calculate_difficulty (generate_block_hash addr batch_id ec nonce mr now) then
        some ⟨nonce, generate_block_hash addr batch_id ec nonce mr now,
              calculate_difficulty (generate_block_hash addr batch_id ec nonce mr now), ec⟩
      else mine_block_aux addr batch_id ec mr now d fuel (nonce + 1) := rfl

/-- Soundness of the bounded nonce search: any returned outcome carries
the hash of its own nonce, meets the difficulty, and is the first nonce in
search order to do so. -/
theorem mine_block_aux_sound (addr batch_id : List Nat) (ec : Nat) (mr : List Nat)
    (now d : Nat) :
    ∀ (fuel start : Nat) (r : MiningOutcome),
      mine_block_aux addr batch_id ec mr now d fuel start = some r →
      r.block_hash = generate_block_hash addr batch_id ec r.nonce mr now ∧
      r.difficulty = calculate_difficulty r.block_hash ∧
      d ≤ calculate_difficulty r.block_hash ∧
      start ≤ r.nonce ∧
      ∀ m, start ≤ m → m < r.nonce →
        calculate_difficulty (generate_block_hash addr batch_id ec m mr now) < d := by
  intro fuel
  induction fuel with
  | zero => intro start r hr; exact absurd hr (by simp [mine_block_aux])
  | succ fuel ih =>
      intro start r hr
      rw [mine_block_aux_step] at hr
      by_cases hcond : d ≤ calculate_difficulty (generate_block_hash addr batch_id ec start mr now)
      · rw [if_pos hcond] at hr
        injection hr with hr
        subst hr
        refine ⟨rfl, rfl, hcond, le_refl _, ?_⟩
        intro m hm1 hm2
        exact absurd (lt_of_le_of_lt hm1 hm2) (lt_irrefl _)
      · rw [if_neg hcond] at hr
        obtain ⟨h1, h2, h3, h4, h5⟩ := ih (start + 1) r hr
        refine ⟨h1, h2, h3, by omega, ?_⟩
        intro m hm1 hm2
        by_cases hms : m = start
        · subst hms
          omega
        · exact h5 m (by omega) hm2

/-- C2: whenever `_mine_block` returns an outcome, its `block_hash` is the
hex SHA-256 of `miner ∥ batch_id ∥ events_count ∥ nonce ∥ merkle_root ∥
hour_bucket`, that hash begins with at least `min_difficulty` ASCII `'0'`
characters, and the nonce is the least one in the search order 0, 1, 2, …
meeting the difficulty
(`PRFIClientDescentralizado._mine_block`, `_generate_block_hash`,
`src/prfi-core/cliente_descentralizado.py:305,360`). -/
theorem C2_mined_block_sound (addr batch_id : List Nat) (ec : Nat) (mr : List Nat)
    (now d : Nat) (r : MiningOutcome)
    (h : mine_block addr batch_id ec mr now d = some r) :
    r.block_hash = generate_block_hash addr batch_id ec r.nonce mr now ∧
    d ≤ calculate_difficulty r.block_hash ∧
    r.block_hash.take d = List.replicate d 48 ∧
    ∀ m, m < r.nonce →
      calculate_difficulty (generate_block_hash addr batch_id ec m mr now) < d := by
  obtain ⟨h1, _, h3, _, h5⟩ := mine_block_aux_sound addr batch_id ec mr now d 1000000 0 r h
  exact ⟨h1, h3, take_eq_replicate_of_le_difficulty d r.block_hash h3,
         fun m hm => h5 m (Nat.zero_le m) hm⟩

/-- Witness for C2: mining the byte inputs `"m"`, `"b"`, merkle root
`"r"`, at hour bucket 2 with `min_difficulty = 0` returns nonce 0 and the
hash of nonce 0, which trivially starts with zero `'0'` characters. -/
theorem C2_mined_block_sound_witness :
    mine_block [109] [98] 1000 [114] 7200 0 =
      some ⟨0, generate_block_hash [109] [98] 1000 0 [114] 7200,
            calculate_difficulty (generate_block_hash [109] [98] 1000 0 [114] 7200), 1000⟩ ∧
    (generate_block_hash [109] [98] 1000 0 [114] 7200).take 0 = List.replicate 0 48 :=
  have h : mine_block [109] [98] 1000 [114] 7200 0 =
      some ⟨0, generate_block_hash [109] [98] 1000 0 [114] 7200,
            calculate_difficulty (generate_block_hash [109] [98] 1000 0 [114] 7200), 1000⟩ := by
    rw [mine_block]
    rw [show (1000000 : Nat) = 999999 + 1 from rfl]
    rw [mine_block_aux_step]
    rw [if_pos (Nat.zero_le _)]
  ⟨h, ((C2_mined_block_sound [109] [98] 1000 [114] 7200 0 _ h).2.2.1 :)⟩

/-- Unfolded step of the `ProofOfWork.mine` loop. -/
theorem pow_mine_aux_step (data target : List Nat) (fuel nonce : Nat) :
    pow_mine_aux data target (fuel + 1) nonce =
      if target.isPrefixOf (sha256hex (data ++ natToDec nonce)) then
        some (nonce, sha256hex (data ++ natToDec nonce))
      else pow_mine_aux data target fuel (nonce + 1) := rfl

/-- A replicate of length `d` can only precede a list of length at least `d`. -/
theorem le_length_of_replicate_isPrefixOf :
    ∀ (d : Nat) (l : List Nat), (List.replicate d 48).isPrefixOf l = true → d ≤ l.length := by
  intro d
  induction d with
  | zero => intro l _; exact Nat.zero_le _
  | succ d ih =>
      intro l hp
      cases l with
      | nil => simp [List.replicate_succ, List.isPrefixOf] at hp
      | cons c rest =>
          rw [List.replicate_succ] at hp
          simp only [List.isPrefixOf, Bool.and_eq_true] at hp
          have := ih rest hp.2
          simp only [List.length_cons]
          omega

/-- With a target of 65 or more zeros, no 64-character hex digest ever
matches, so the unbounded `ProofOfWork.mine` loop never returns, whatever
fuel it is given. -/
theorem pow_mine_aux_none (data : List Nat) (d : Nat) (hd : 65 ≤ d) :
    ∀ (fuel nonce : Nat), pow_mine_aux data (List.replicate d 48) fuel nonce = none := by
  intro fuel
  induction fuel with
  | zero => intro nonce; rfl
  | succ fuel ih =>
      intro nonce
      rw [pow_mine_aux_step]
      have hno : ¬ (List.replicate d 48).isPrefixOf (sha256hex (data ++ natToDec nonce)) = true := by
        intro hp
        have h1 := le_length_of_replicate_isPrefixOf d _ hp
        rw [sha256hex_length] at h1
        omega
      rw [if_neg (by simpa using hno)]
      exact ih (nonce + 1)

/-- Difficulty at least 65 exceeds any leading-zero count of a
64-character digest, so the bounded `_mine_block` search always comes back
empty. -/
theorem mine_block_aux_none (addr batch_id : List Nat) (ec : Nat) (mr : List Nat)
    (now d : Nat) (hd : 65 ≤ d) :
    ∀ (fuel start : Nat), mine_block_aux addr batch_id ec mr now d fuel start = none := by
  intro fuel
  induction fuel with
  | zero => intro start; rfl
  | succ fuel ih =>
      intro start
      rw [mine_block_aux_step]
      have hno : ¬ d ≤ calculate_difficulty (generate_block_hash addr batch_id ec start mr now) := by
        intro hle
        have h1 := calculate_difficulty_le_length (generate_block_hash addr batch_id ec start mr now)
        have h2 : (generate_block_hash addr batch_id ec start mr now).length = 64 :=
          sha256hex_length _
        omega
      rw [if_neg hno]
      exact ih (start + 1)

/-- Counterexample to C6 as stated: at difficulty 65 (which no 64-digit
hex hash can meet) the standalone `ProofOfWork.mine` loop from
`src/minerador/crypto.py:23` is still searching after 1000001 iterations —
one more than the claimed 10^6 cap — and no `MiningTimeout` is raised; the
codebase defines no such exception. -/
theorem C6_counterexample_no_cap :
    pow_mine_aux [97] (List.replicate 65 48) 1000001 0 = none :=
  pow_mine_aux_none [97] 65 (by omega) 1000001 0

/-- C6 as amended: the decentralized client's `_mine_block` checks at most
10^6 nonces and, when none meets the difficulty, returns `None` rather
than raising `MiningTimeout` (no such exception exists in the code), while
`ProofOfWork.mine` in `src/minerador/crypto.py` has no iteration cap at
all: for an unattainable difficulty it never returns, whatever the fuel.
Difficulty 65 is unattainable because hex digests have 64 characters. -/
theorem C6_mining_termination (addr batch_id : List Nat) (ec : Nat) (mr : List Nat)
    (now d : Nat) (data : List Nat) (fuel nonce : Nat) (hd : 65 ≤ d) :
    mine_block addr batch_id ec mr now d = none ∧
    pow_mine_aux data (List.replicate d 48) fuel nonce = none :=
  ⟨mine_block_aux_none addr batch_id ec mr now d hd 1000000 0,
   pow_mine_aux_none data d hd fuel nonce⟩

/-- Witness for C6 at concrete inputs and difficulty 65. -/
theorem C6_mining_termination_witness :
    mine_block [109] [98] 1000 [114] 7200 65 = none ∧
    pow_mine_aux [98] (List.replicate 65 48) 7 3 = none :=
  C6_mining_termination [109] [98] 1000 [114] 7200 65 [98] 7 3 (by omega)

/-- Counterexample to C1 as stated: for the three leaves `"aa"`, `"bb"`,
`"cc"` (bytes 97 97 / 98 98 / 99 99) the root computed by
`_calculate_merkle_root` differs both from the binary SHA-256 Merkle tree
root `SHA256(SHA256(h1∥h2) ∥ SHA256(h3∥h3))` and from the claim's
once-more-hashed variant of it: the code hashes the JSON dump of the event
list instead of building a tree. -/
theorem C1_counterexample_not_merkle :
    calculate_merkle_root [[97, 97], [98, 98], [99, 99]] ≠
      spec_merkle_root [[97, 97], [98, 98], [99, 99]] ∧
    calculate_merkle_root [[97, 97], [98, 98], [99, 99]] ≠
      sha256hex (spec_merkle_root [[97, 97], [98, 98], [99, 99]]) := by
  set_option maxRecDepth 100000 in
  constructor
  · decide
  · decide

/-- C1 as amended: the batch root of `_calculate_merkle_root` is not a
Merkle tree root but the plain SHA-256 hex digest of the JSON dump of the
event list; for three leaves it hashes the single string
`["h1", "h2", "h3"]`, and the empty batch gives 64 ASCII zeros. -/
theorem C1_root_is_flat_hash (events : List (List Nat)) (h1 h2 h3 : List Nat)
    (hne : events ≠ []) :
    calculate_merkle_root events = sha256hex (json_dumps_strlist events) ∧
    calculate_merkle_root [h1, h2, h3] =
      sha256hex ([91, 34] ++ h1 ++ [34, 44, 32, 34] ++ h2 ++ [34, 44, 32, 34] ++ h3 ++ [34, 93]) ∧
    calculate_merkle_root [] = List.replicate 64 48 := by
  refine ⟨?_, ?_, rfl⟩
  · rw [calculate_merkle_root, if_neg]
    intro hempty
    exact hne (List.isEmpty_iff.mp hempty)
  · rw [calculate_merkle_root, if_neg (by simp)]
    congr 1
    simp [json_dumps_strlist, List.intercalate, List.intersperse]

/-- Witness for the amended C1 at the singleton event list `["a"]` and
leaves `"a"`, `"b"`, `"c"`. -/
theorem C1_root_is_flat_hash_witness :
    calculate_merkle_root [[97]] = sha256hex (json_dumps_strlist [[97]]) ∧
    calculate_merkle_root [[97], [98], [99]] =
      sha256hex ([91, 34] ++ [97] ++ [34, 44, 32, 34] ++ [98] ++ [34, 44, 32, 34] ++ [99] ++ [34, 93]) ∧
    calculate_merkle_root [] = List.replicate 64 48 :=
  C1_root_is_flat_hash [[97]] [97] [98] [99] (by simp)

/-- Left cancellation for string append. -/
theorem str_append_left_cancel {s t u : String} (h : s ++ t = s ++ u) : t = u := by
  have hd : s.data ++ t.data = s.data ++ u.data := by
    rw [← String.data_append s t, ← String.data_append s u, h]
  exact String.ext (List.append_cancel_left hd)

/-- A sorted list with pairwise-distinct keys is the unique sorted
arrangement of its elements: two key-sorted permutations of each other
with no duplicate key are equal. -/
theorem sorted_perm_nodup_keys_eq :
    ∀ (l1 l2 : List (String × String)), (l1.map Prod.fst).Nodup → l1.Perm l2 →
      List.Sorted keyLe l1 → List.Sorted keyLe l2 → l1 = l2 := by
  intro l1
  induction l1 with
  | nil =>
      intro l2 _ hp _ _
      exact (hp.symm.eq_nil).symm
  | cons a t1 ih =>
      intro l2 hnd hp hs1 hs2
      cases l2 with
      | nil => exact absurd hp.eq_nil (by simp)
      | cons b t2 =>
          have hab : a = b := by
            have ha2 : a ∈ b :: t2 := hp.subset (List.mem_cons_self a t1)
            have hb1 : b ∈ a :: t1 := hp.symm.subset (List.mem_cons_self b t2)
            rcases List.mem_cons.mp ha2 with heq | hat2
            · exact heq
            rcases List.mem_cons.mp hb1 with heq | hbt1
            · exact heq.symm
            have h1 : keyLe a b := List.rel_of_sorted_cons hs1 b hbt1
            have h2 : keyLe b a := List.rel_of_sorted_cons hs2 a hat2
            have hkey : a.1 = b.1 := le_antisymm h1 h2
            exfalso
            have hnd' : a.1 ∉ t1.map Prod.fst ∧ (t1.map Prod.fst).Nodup :=
              List.nodup_cons.mp hnd
            have hmem : a.1 ∈ t1.map Prod.fst := by
              rw [hkey]
              exact List.mem_map_of_mem Prod.fst hbt1
            exact hnd'.1 hmem
          subst hab
          have hnd' : a.1 ∉ t1.map Prod.fst ∧ (t1.map Prod.fst).Nodup :=
            List.nodup_cons.mp hnd
          have htail : t1.Perm t2 := hp.cons_inv
          rw [ih t2 hnd'.2 htail hs1.of_cons hs2.of_cons]

/-- Payloads with the same non-signature fields (as an unordered
association list with distinct keys) canonicalize identically. -/
theorem canonical_json_eq_of_perm (p1 p2 : List (String × String))
    (hperm : (remove_signature_field p1).Perm (remove_signature_field p2))
    (hnd : ((remove_signature_field p1).map Prod.fst).Nodup) :
    canonical_json p1 = canonical_json p2 := by
  have hsorteq :
      List.insertionSort keyLe (remove_signature_field p1) =
        List.insertionSort keyLe (remove_signature_field p2) := by
    apply sorted_perm_nodup_keys_eq
    · have hp1 : ((List.insertionSort keyLe (remove_signature_field p1)).map Prod.fst).Perm
          ((remove_signature_field p1).map Prod.fst) :=
        (List.perm_insertionSort keyLe (remove_signature_field p1)).map Prod.fst
      exact (hp1.nodup_iff).mpr hnd
    · exact ((List.perm_insertionSort keyLe (remove_signature_field p1)).trans hperm).trans
        (List.perm_insertionSort keyLe (remove_signature_field p2)).symm
    · exact List.sorted_insertionSort keyLe (remove_signature_field p1)
    · exact List.sorted_insertionSort keyLe (remove_signature_field p2)
  unfold canonical_json
  rw [hsorteq]

/-- Appending distinct nonces to the same canonical text gives distinct
MAC inputs, the empty-string (falsy) nonce behaving like no nonce. -/
theorem append_nonce_ne (c : String) (n1 n2 : String) (h : n1 ≠ n2) :
    append_nonce c (some n1) ≠ append_nonce c (some n2) := by
  have e1 : append_nonce c (some n1) = if n1 = "" then c else c ++ n1 := rfl
  have e2 : append_nonce c (some n2) = if n2 = "" then c else c ++ n2 := rfl
  rw [e1, e2]
  by_cases h1 : n1 = ""
  · rw [if_pos h1]
    have h2 : ¬ n2 = "" := fun h2 => h (h1.trans h2.symm)
    rw [if_neg h2]
    intro heq
    apply h2
    have : c ++ "" = c ++ n2 := by
      rw [String.append_empty]
      exact heq
    exact (str_append_left_cancel this).symm
  · rw [if_neg h1]
    by_cases h2 : n2 = ""
    · rw [if_pos h2]
      intro heq
      apply h1
      have : c ++ "" = c ++ n1 := by
        rw [String.append_empty]
        exact heq.symm
      exact (str_append_left_cancel this).symm
    · rw [if_neg h2]
      intro heq
      exact h (str_append_left_cancel heq)

/-- C9: the HMAC signature is a deterministic function of the sorted-key
canonical JSON of the non-signature fields and the nonce — two payloads
with identical non-signature fields (distinct keys, any order, any stored
signature) and the same nonce sign identically — and, as long as the MAC
is collision-free on the inputs involved (`mac` injective), two different
nonces over the same fields produce different signatures
(`SecurityManager.generate_signature`, `src/prfi-core/seguranca.py:33`). -/
theorem C9_signature_determinism (mac : String → String)
    (p1 p2 : List (String × String)) (n n1 n2 : String)
    (hperm : (remove_signature_field p1).Perm (remove_signature_field p2))
    (hnd : ((remove_signature_field p1).map Prod.fst).Nodup)
    (hinj : Function.Injective mac)
    (hne : n1 ≠ n2) :
    generate_signature mac p1 (some n) = generate_signature mac p2 (some n) ∧
    generate_signature mac p1 (some n1) ≠ generate_signature mac p1 (some n2) := by
  constructor
  · unfold generate_signature
    rw [canonical_json_eq_of_perm p1 p2 hperm hnd]
  · unfold generate_signature
    intro heq
    have hmac : mac (append_nonce (canonical_json p1) (some n1)) =
        mac (append_nonce (canonical_json p1) (some n2)) :=
      str_append_left_cancel heq
    exact append_nonce_ne (canonical_json p1) n1 n2 hne (hinj hmac)

/-- Witness for C9 with the identity MAC (injective), two orderings of the
same two fields, and nonces `"x"` versus `"y"`. -/
theorem C9_signature_determinism_witness :
    generate_signature (fun s => s) [("a", "1"), ("b", "2")] (some "x") =
      generate_signature (fun s => s) [("b", "2"), ("a", "1")] (some "x") ∧
    generate_signature (fun s => s) [("a", "1"), ("b", "2")] (some "x") ≠
      generate_signature (fun s => s) [("a", "1"), ("b", "2")] (some "y") :=
  C9_signature_determinism (fun s => s) [("a", "1"), ("b", "2")] [("b", "2"), ("a", "1")]
    "x" "x" "y" (by decide) (by decide) (fun a b h => h) (by decide)

/-- Every block fails `_is_block_valid_for_submission`: the checks that
run first either return `False`, and any block passing them reaches the
`block.timestamp` access, which raises and is caught as invalid. -/
theorem is_block_valid_for_submission_false (b : MiningBlock) :
    is_block_valid_for_submission b = false := by
  unfold is_block_valid_for_submission valid_body
  by_cases h1 : b.block_id = "" ∨ b.event_id = "" ∨ b.signature = "" ∨ b.public_key = "" ∨
      b.miner = ""
  · rw [if_pos h1]
  · rw [if_neg h1]
    by_cases h2 : b.status ≠ 200
    · rw [if_pos h2]
    · rw [if_neg h2]
      by_cases h3 : b.points ≤ 0
      · rw [if_pos h3]
      · rw [if_neg h3]

/-- Consequently the scan returns the empty list on every store. -/
theorem scan_pending_blocks_eq_nil (store : List MiningBlock) :
    scan_pending_blocks store = [] := by
  have hfil : ∀ l : List MiningBlock, l.filter is_block_valid_for_submission = [] := by
    intro l
    induction l with
    | nil => rfl
    | cons b bs ih => simp [List.filter_cons, is_block_valid_for_submission_false, ih]
  show (match sort_blocks_by_priority
      ((store.filter (fun b => b.block_status = BlockStatusM.pending)).filter
        is_block_valid_for_submission) with
    | .ok l => l
    | .error _ => []) = []
  rw [hfil]
  rfl

/-- C7 evaluated at the failing input: a fully populated PENDING block
with status 200 and positive points — one the claim requires the scan to
return — is skipped, because `_is_block_valid_for_submission` reads the
nonexistent `block.timestamp` attribute, and the resulting
`AttributeError` is caught and treated as invalid
(`BlockScanner.scan_pending_blocks`, `src/submitter/scanner.py:45,193`). -/
theorem C7_scan_skips_valid_pending_block :
    sample_pending_block.block_status = BlockStatusM.pending ∧
    sample_pending_block.status = 200 ∧
    (0 : ℚ) < sample_pending_block.points ∧
    sample_pending_block.signature ≠ "" ∧
    scan_pending_blocks [sample_pending_block] = [] :=
  ⟨rfl, rfl, by norm_num [sample_pending_block], by decide, scan_pending_blocks_eq_nil _⟩

/-- When the block loads, `update_block_status` saves the mutated copy. -/
theorem update_block_status_of_load (store : BlockStore) (block_id : String)
    (new_status : BlockStatusM) (tx_hash : Option String) (confirmation_block : Option MetaVal)
    (now : Nat) (sb : MiningBlock) (hload : load_block store block_id = some sb) :
    update_block_status store block_id new_status tx_hash confirmation_block now =
      (save_block store (apply_update sb new_status tx_hash confirmation_block now), true) := by
  unfold update_block_status
  rw [hload]

/-- The failure-path mutation: status PENDING, metadata dict into the
`confirmation_block` slot, every other field untouched. -/
theorem apply_update_fail_eq (sb : MiningBlock) (txh : String) (now : Nat) :
    apply_update sb BlockStatusM.pending none
      (some (MetaVal.dictVal [("failed_tx_hash", txh), ("failure_reason", "transaction_failed")]))
      now =
      { sb with
          block_status := BlockStatusM.pending,
          confirmation_block := some (MetaVal.dictVal
            [("failed_tx_hash", txh), ("failure_reason", "transaction_failed")]) } := rfl

/-- Mutation never changes the block's id. -/
theorem apply_update_block_id (b : MiningBlock) (st : BlockStatusM) (txh : Option String)
    (cb : Option MetaVal) (now : Nat) :
    (apply_update b st txh cb now).block_id = b.block_id := by
  unfold apply_update
  cases txh with
  | none =>
      cases cb with
      | none => by_cases h : st = BlockStatusM.submitted <;> simp [h]
      | some v =>
          by_cases hv : metaTruthy v <;>
            by_cases h : st = BlockStatusM.submitted <;> simp [h, hv]
  | some t =>
      by_cases ht : t ≠ "" <;>
        cases cb with
        | none => by_cases h : st = BlockStatusM.submitted <;> simp [h, ht]
        | some v =>
            by_cases hv : metaTruthy v <;>
              by_cases h : st = BlockStatusM.submitted <;> simp [h, ht, hv]

/-- Mutation always installs the requested status. -/
theorem apply_update_block_status (b : MiningBlock) (st : BlockStatusM) (txh : Option String)
    (cb : Option MetaVal) (now : Nat) :
    (apply_update b st txh cb now).block_status = st := by
  unfold apply_update
  cases txh with
  | none =>
      cases cb with
      | none => by_cases h : st = BlockStatusM.submitted <;> simp [h]
      | some v =>
          by_cases hv : metaTruthy v <;>
            by_cases h : st = BlockStatusM.submitted <;> simp [h, hv]
  | some t =>
      by_cases ht : t ≠ "" <;>
        cases cb with
        | none => by_cases h : st = BlockStatusM.submitted <;> simp [h, ht]
        | some v =>
            by_cases hv : metaTruthy v <;>
              by_cases h : st = BlockStatusM.submitted <;> simp [h, ht, hv]

/-- C8 as amended: processing a receipt whose on-chain status is 0 takes
the failure path, and every member block whose stored copy loads is
rewritten with status PENDING and the failure-metadata dict in its
`confirmation_block` slot — nothing else about the stored block changes.
`MiningBlock` has no `retry_count` field, so no per-block retry counter is
incremented, and the monitor touches no `SubmissionBatch`; it only drops
the transaction from its in-memory monitoring map
(`SubmissionMonitor._process_transaction_receipt`, `_fail_transaction`,
`src/submitter/monitor.py:137,233`). -/
theorem C8_blocks_revert_to_pending (store : BlockStore) (cb cur now : Nat) (txh : String)
    (receipt : Receipt) (b sb : MiningBlock)
    (h0 : receipt.status = 0)
    (hload : load_block store b.block_id = some sb)
    (hid : sb.block_id = b.block_id) :
    process_transaction_receipt store cb cur txh receipt [b] now =
      fail_transaction store txh [b] now ∧
    load_block (fail_transaction store txh [b] now) b.block_id =
      some { sb with
              block_status := BlockStatusM.pending,
              confirmation_block := some (MetaVal.dictVal
                [("failed_tx_hash", txh), ("failure_reason", "transaction_failed")]) } := by
  constructor
  · unfold process_transaction_receipt
    rw [h0]
    rfl
  · have e1 : fail_transaction store txh [b] now =
        (update_block_status store b.block_id BlockStatusM.pending none
          (some (MetaVal.dictVal
            [("failed_tx_hash", txh), ("failure_reason", "transaction_failed")])) now).1 := rfl
    rw [e1, update_block_status_of_load store b.block_id _ _ _ now sb hload, apply_update_fail_eq]
    show load_block (save_block store _) b.block_id = _
    unfold load_block save_block
    rw [if_pos]
    have : ({ sb with
              block_status := BlockStatusM.pending,
              confirmation_block := some (MetaVal.dictVal
                [("failed_tx_hash", txh), ("failure_reason", "transaction_failed")]) } :
        MiningBlock).block_id = sb.block_id := rfl
    rw [this, hid]

/-- Witness for C8 at a concrete one-block store: the submitted block
reverts to PENDING with the failure metadata recorded. -/
theorem C8_blocks_revert_to_pending_witness :
    process_transaction_receipt (save_block (fun _ => none) sample_submitted_block) 12 100
        "0xdead" ⟨0, 95, 21000⟩ [sample_submitted_block] 0 =
      fail_transaction (save_block (fun _ => none) sample_submitted_block) "0xdead"
        [sample_submitted_block] 0 ∧
    load_block
        (fail_transaction (save_block (fun _ => none) sample_submitted_block) "0xdead"
          [sample_submitted_block] 0)
        sample_submitted_block.block_id =
      some { sample_submitted_block with
              block_status := BlockStatusM.pending,
              confirmation_block := some (MetaVal.dictVal
                [("failed_tx_hash", "0xdead"), ("failure_reason", "transaction_failed")]) } :=
  C8_blocks_revert_to_pending (save_block (fun _ => none) sample_submitted_block) 12 100 0
    "0xdead" ⟨0, 95, 21000⟩ sample_submitted_block sample_submitted_block rfl (by decide) rfl

/-- Counterexample to C8 as stated: at a concrete store holding exactly
the submitted member block, the failure path rewrites the stored block
changing only `block_status` (to PENDING) and the dynamically typed
`confirmation_block` slot (which receives the failure-metadata dict); in
particular every counter field is unchanged — there is no `retry_count`
on blocks to increment — and nothing marks any SubmissionBatch FAILED. -/
theorem C8_counterexample_no_retry_increment :
    fail_transaction (save_block (fun _ => none) sample_submitted_block) "0xdead"
        [sample_submitted_block] 0 sample_submitted_block.block_id =
      some (StoredFile.valid
        { sample_submitted_block with
            block_status := BlockStatusM.pending,
            confirmation_block := some (MetaVal.dictVal
              [("failed_tx_hash", "0xdead"), ("failure_reason", "transaction_failed")]) }) := by
  decide

/-- C10: `update_block_status` on a missing (or unparseable) block returns
`False` and leaves the store untouched; on a block that loads it returns
`True`, rewrites that block's file with the new status, and touches no
other file (`LocalBlockStorage.update_block_status`, `load_block`,
`src/minerador/storage.py:123,65`). The well-formedness hypothesis
`b.block_id = id` reflects that files are named by their block's own id,
which every write path maintains. -/
theorem C10_update_block_status (store : BlockStore) (id : String) (st : BlockStatusM)
    (txh : Option String) (cb : Option MetaVal) (now : Nat) :
    (load_block store id = none →
      update_block_status store id st txh cb now = (store, false)) ∧
    (∀ b, load_block store id = some b → b.block_id = id →
      (update_block_status store id st txh cb now).2 = true ∧
      (update_block_status store id st txh cb now).1 id =
        some (StoredFile.valid (apply_update b st txh cb now)) ∧
      (apply_update b st txh cb now).block_status = st ∧
      ∀ other, other ≠ id → (update_block_status store id st txh cb now).1 other = store other) := by
  constructor
  · intro hnone
    unfold update_block_status
    rw [hnone]
  · intro b hb hbid
    rw [update_block_status_of_load store id st txh cb now b hb]
    refine ⟨rfl, ?_, apply_update_block_status b st txh cb now, ?_⟩
    · show save_block store (apply_update b st txh cb now) id = _
      unfold save_block
      rw [if_pos]
      rw [apply_update_block_id, hbid]
    · intro other hother
      show save_block store (apply_update b st txh cb now) other = store other
      unfold save_block
      rw [if_neg]
      rw [apply_update_block_id, hbid]
      exact hother

/-- Witness for C10: a missing id in the empty store, then a real update
of the sample block to SUBMITTED in a one-block store. -/
theorem C10_update_block_status_witness :
    (load_block (fun _ => none) "missing" = none ∧
     update_block_status (fun _ => none) "missing" BlockStatusM.confirmed none none 0 =
       ((fun _ => none), false)) ∧
    (load_block (save_block (fun _ => none) sample_pending_block) "blk-1" =
       some sample_pending_block ∧
     (update_block_status (save_block (fun _ => none) sample_pending_block) "blk-1"
        BlockStatusM.submitted (some "0xabc") none 77).2 = true ∧
     (update_block_status (save_block (fun _ => none) sample_pending_block) "blk-1"
        BlockStatusM.submitted (some "0xabc") none 77).1 "blk-1" =
       some (StoredFile.valid
         (apply_update sample_pending_block BlockStatusM.submitted (some "0xabc") none 77)) ∧
     (apply_update sample_pending_block BlockStatusM.submitted (some "0xabc") none 77).block_status =
       BlockStatusM.submitted) :=
  ⟨⟨rfl,
    (C10_update_block_status (fun _ => none) "missing" BlockStatusM.confirmed none none 0).1 rfl⟩,
   by
     have hload : load_block (save_block (fun _ => none) sample_pending_block) "blk-1" =
         some sample_pending_block := by decide
     have h := (C10_update_block_status (save_block (fun _ => none) sample_pending_block) "blk-1"
        BlockStatusM.submitted (some "0xabc") none 77).2 sample_pending_block hload rfl
     exact ⟨hload, h.1, h.2.1, h.2.2.1⟩⟩
